import Mathlib

/-!
Verification of the query pipeline of the google-drive-semantic-search
repository (src/main.py, src/evaluator.py) against its specification.

Shallow embedding conventions:
* A LangChain `Document` becomes `Doc`: `page_content` plus the metadata keys
  the pipeline reads (`title`, `source`, `file_id`, `id`), each an
  `Option String` because Python reads them with `dict.get` and a default.
* The FAISS vector store is an oracle `SearchOracle : SearchCall → Except Unit (List Doc)`;
  a Python exception raised by `retriever.invoke` is the `.error` case.  The
  float parameters `lambda_mult = 0.7` and `score_threshold = 0.1` are stored
  in tenths (`7`, `1`) so that no floating point enters the model.
* The hosted LLM is an oracle `LLMOracle : String → Except String String`
  (prompt to answer text, `.error` for a raised exception).
* Character classes of the regexes in main.py (`\b`, `[A-Z][a-z]+`, link /
  email / phone extraction) are modelled over ASCII, which is the alphabet the
  regexes themselves spell out; `re.findall` is embedded as a left-to-right
  non-overlapping scan with the same greedy/backtracking behaviour, executed
  on explicit fuel equal to the string length.
-/

namespace GDSS

/-- A retrieved document chunk: `page_content` and the metadata fields read by
`query_llm` (`title`, `source`, `file_id`, `id`), absent keys as `none`. -/
structure Doc where
  page_content : String
  title : Option String := none
  source : Option String := none
  file_id : Option String := none
  id : Option String := none
deriving DecidableEq

/-! ### Basic character / string helpers shared by the embedded code -/

/-- Python whitespace for `str.split()`, `str.strip()` and the regex class
`\s`. -/
def isPySpace (c : Char) : Bool :=
  c = ' ' || c = '\t' || c = '\n' || c = '\r' || c = '\x0b' || c = '\x0c'

/-- `str.lower()` on one character (ASCII fragment). -/
def lowerChar (c : Char) : Char :=
  if c.isUpper then Char.ofNat (c.toNat + 32) else c

/-- `str.lower()` (ASCII fragment, matching the ASCII-only regexes and
stop-lists the pipeline compares against). -/
def pyLower (s : String) : String := String.mk (s.data.map lowerChar)

/-- Regex word character (`\w` / `\b` boundary alphabet), ASCII fragment. -/
def isWordCh (c : Char) : Bool :=
  c.isAlpha || c.isDigit || c = '_'

/-- Word-character test on an optional character (absent = not a word char),
used for `\b` at the edges of the text. -/
def isWordOpt : Option Char → Bool
  | some c => isWordCh c
  | none => false

/-- Auxiliary for `pySplit`: walk the characters, collecting the current
token in reverse in `acc`. -/
def pySplitAux : List Char → List Char → List String
  | [], acc => if acc.isEmpty then [] else [String.mk acc.reverse]
  | c :: cs, acc =>
    if isPySpace c then
      if acc.isEmpty then pySplitAux cs []
      else String.mk acc.reverse :: pySplitAux cs []
    else pySplitAux cs (c :: acc)

/-- Python `str.split()` with no argument: split on runs of whitespace,
discarding empty tokens. -/
def pySplit (s : String) : List String := pySplitAux s.data []

/-- Auxiliary for `wordRuns`: maximal runs of word characters. -/
def wordRunsAux : List Char → List Char → List (List Char)
  | [], acc => if acc.isEmpty then [] else [acc.reverse]
  | c :: cs, acc =>
    if isWordCh c then wordRunsAux cs (c :: acc)
    else if acc.isEmpty then wordRunsAux cs []
    else acc.reverse :: wordRunsAux cs []

/-- The maximal runs of word characters of a string, in order.  The regex
`\b[A-Z][a-z]+\b` matches exactly those runs that consist of one uppercase
letter followed by one or more lowercase letters. -/
def wordRuns (s : String) : List (List Char) := wordRunsAux s.data []

/-- Does a word run match `[A-Z][a-z]+` exactly (so that, being a maximal
word run, it is a `\b[A-Z][a-z]+\b` match)? -/
def isCapName : List Char → Bool
  | c :: c2 :: rest => c.isUpper && (c2 :: rest).all Char.isLower
  | _ => false

/-- Char-list prefix test. -/
def isPrefixOfChars : List Char → List Char → Bool
  | [], _ => true
  | _ :: _, [] => false
  | a :: as, b :: bs => a = b && isPrefixOfChars as bs

/-- Char-list infix (contiguous substring) test. -/
def isInfixOfChars (n : List Char) : List Char → Bool
  | [] => isPrefixOfChars n []
  | c :: cs => isPrefixOfChars n (c :: cs) || isInfixOfChars n cs

/-- Python `needle in hay` on strings: contiguous substring test. -/
def strContains (hay needle : String) : Bool := isInfixOfChars needle.data hay.data

/-! ### The `re.findall` extractions of the answer auditor

main.py extracts, from each document's content,
links (`https?://[^\s]+`), emails (`\b[A-Za-z0-9._%+-]+@[A-Za-z0-9.-]+\.[A-Z|a-z]{2,}\b`)
and phones (`\+91\s*\d{10}`).  Each is embedded as a matcher that attempts a
match at the current position (reproducing the pattern's greedy/backtracking
behaviour, which is worked out case by case in the comments) plus a fueled
left-to-right non-overlapping scan. -/

/-- Attempt to match `https?://[^\s]+` at the head of the character list.
`[^\s]+` is greedy with nothing after it, so a match is the literal prefix
followed by the maximal nonempty run of non-whitespace characters. -/
def matchLink (cs : List Char) : Option (List Char × List Char) :=
  match cs with
  | 'h' :: 't' :: 't' :: 'p' :: rest =>
    match rest with
    | 's' :: ':' :: '/' :: '/' :: rest2 =>
      let run := rest2.takeWhile (fun c => !isPySpace c)
      if run.isEmpty then none
      else some (['h', 't', 't', 'p', 's', ':', '/', '/'] ++ run, rest2.drop run.length)
    | ':' :: '/' :: '/' :: rest2 =>
      let run := rest2.takeWhile (fun c => !isPySpace c)
      if run.isEmpty then none
      else some (['h', 't', 't', 'p', ':', '/', '/'] ++ run, rest2.drop run.length)
    | _ => none
  | _ => none

/-- Attempt to match `\+91\s*\d{10}` at the head of the character list.
`\s*` is greedy; shortening it would leave a whitespace character where a
digit is required, so the whitespace run is maximal and must be followed by
ten digits. -/
def matchPhone (cs : List Char) : Option (List Char × List Char) :=
  match cs with
  | '+' :: '9' :: '1' :: rest =>
    let ws := rest.takeWhile isPySpace
    let rest2 := rest.drop ws.length
    let ds := rest2.take 10
    if ds.length = 10 && ds.all Char.isDigit then
      some ('+' :: '9' :: '1' :: (ws ++ ds), rest2.drop 10)
    else none
  | _ => none

/-- Local-part characters of the email pattern: `[A-Za-z0-9._%+-]`. -/
def isLocalCh (c : Char) : Bool :=
  c.isAlpha || c.isDigit || c = '.' || c = '_' || c = '%' || c = '+' || c = '-'

/-- Domain characters of the email pattern: `[A-Za-z0-9.-]`. -/
def isMidCh (c : Char) : Bool :=
  c.isAlpha || c.isDigit || c = '.' || c = '-'

/-- Characters of the email pattern's final class `[A-Z|a-z]` (letters and the
literal bar the pattern accidentally includes). -/
def isTldCh (c : Char) : Bool := c.isAlpha || c = '|'

/-- Backtracking over `{2,}\b` at the end of the email pattern: given the
characters `tpart` after the final dot, try final-segment lengths from the
greedy maximum down to 2 until the trailing `\b` holds. -/
def tldTry (pre tpart : List Char) : Nat → Option (List Char × List Char)
  | 0 => none
  | 1 => none
  | n + 2 =>
    match tpart.get? (n + 1) with
    | none => tldTry pre tpart (n + 1)
    | some lc =>
      if isWordCh lc ≠ isWordOpt (tpart.get? (n + 2)) then
        some (pre ++ tpart.take (n + 2), tpart.drop (n + 2))
      else tldTry pre tpart (n + 1)

/-- Backtracking over `[A-Za-z0-9.-]+\.` in the email pattern: `rest2` is the
text after `@`; try domain-part lengths `p` from the greedy maximum down to 1,
requiring a literal dot right after, then hand over to `tldTry`. -/
def dotTry (lead rest2 : List Char) : Nat → Option (List Char × List Char)
  | 0 => none
  | p + 1 =>
    let attempt :=
      if rest2.get? (p + 1) = some '.' then
        let tpart := rest2.drop (p + 2)
        tldTry (lead ++ rest2.take (p + 1) ++ ['.']) tpart
          (tpart.takeWhile isTldCh).length
      else none
    match attempt with
    | some r => some r
    | none => dotTry lead rest2 p

/-- Attempt to match the email pattern at the head of `cs`, with `prev` the
character just before it (for the leading `\b`).  `@` is not a local-part
character, so the local part is the maximal run of local characters; the dot
before the final segment lies strictly inside the maximal domain run, tried
rightmost first as the regex engine does. -/
def matchEmail (prev : Option Char) (cs : List Char) : Option (List Char × List Char) :=
  match cs with
  | [] => none
  | c0 :: _ =>
    if isWordOpt prev = isWordCh c0 then none
    else
      let lrun := cs.takeWhile isLocalCh
      if lrun.isEmpty then none
      else
        match cs.drop lrun.length with
        | '@' :: rest2 =>
          let mrun := rest2.takeWhile isMidCh
          if mrun.length < 2 then none
          else dotTry (lrun ++ ['@']) rest2 (mrun.length - 1)
        | _ => none

/-- Fueled scan for `re.findall` with a position-independent matcher:
leftmost matches, non-overlapping, resuming after each match. -/
def scanAll (m : List Char → Option (List Char × List Char)) :
    Nat → List Char → List String
  | 0, _ => []
  | _ + 1, [] => []
  | fuel + 1, c :: cs =>
    match m (c :: cs) with
    | some (mt, rest) => String.mk mt :: scanAll m fuel rest
    | none => scanAll m fuel cs

/-- Fueled scan for the email pattern, which also tracks the previous
character for the leading `\b`. -/
def scanEmails : Nat → Option Char → List Char → List String
  | 0, _, _ => []
  | _ + 1, _, [] => []
  | fuel + 1, prev, c :: cs =>
    match matchEmail prev (c :: cs) with
    | some (mt, rest) => String.mk mt :: scanEmails fuel mt.getLast? rest
    | none => scanEmails fuel (some c) cs

/-- `re.findall(r'https?://[^\s]+', s)`. -/
def findLinks (s : String) : List String := scanAll matchLink s.data.length s.data

/-- `re.findall` of the email pattern on `s`. -/
def findEmails (s : String) : List String := scanEmails s.data.length none s.data

/-- `re.findall` of the phone pattern on `s`. -/
def findPhones (s : String) : List String := scanAll matchPhone s.data.length s.data

/-! ### Retrieval aggregator (main.py lines 502-568) -/

/-- The `search_kwargs` the pipeline passes to `as_retriever`.  The float
parameters `lambda_mult = 0.7` and `score_threshold = 0.1` are stored in
tenths so that the model stays in `Nat`. -/
structure SearchKwargs where
  k : Nat
  fetch_k : Option Nat
  lambda_mult_tenths : Option Nat
  score_threshold_tenths : Option Nat
deriving DecidableEq

/-- One call to the vector-store oracle: the `search_type` plus kwargs. -/
structure SearchCall where
  search_type : String
  kwargs : SearchKwargs
deriving DecidableEq

/-- The vector-store oracle: a call either returns chunks or raises. -/
def SearchOracle : Type := SearchCall → Except Unit (List Doc)

/-- The LLM oracle: a prompt either yields answer text or raises, carrying
`str(e)` of the exception. -/
def LLMOracle : Type := String → Except String String

/-- `enhanced_retrieval_count = max(retrieval_count * 2, 12)`. -/
def enhancedRetrievalCount (rc : Nat) : Nat := max (rc * 2) 12

/-- The four retrieval strategies issued by `query_llm`, in program order:
MMR, similarity, similarity with score threshold, and the broad `k = 20`
similarity sweep. -/
def searchCalls (rc : Nat) : List SearchCall :=
  let erc := enhancedRetrievalCount rc
  [⟨"mmr", ⟨erc, some (erc * 3), some 7, none⟩⟩,
   ⟨"similarity", ⟨erc, none, none, none⟩⟩,
   ⟨"similarity_score_threshold", ⟨erc, none, none, some 1⟩⟩,
   ⟨"similarity", ⟨20, none, none, none⟩⟩]

/-- The fallback basic similarity search issued when the four strategies
produce no documents. -/
def fallbackCall : SearchCall := ⟨"similarity", ⟨20, none, none, none⟩⟩

/-- The documents a single `try/except`-wrapped strategy contributes: its
results on success, nothing when the call raises. -/
def okDocs : Except Unit (List Doc) → List Doc
  | .ok ds => ds
  | .error _ => []

/-- `all_docs` after the four strategy blocks: each strategy's results are
appended, a raising strategy is skipped. -/
def runStrategies (o : SearchOracle) (rc : Nat) : List Doc :=
  ((searchCalls rc).map (fun c => okDocs (o c))).flatten

/-- The error string returned when even the fallback search raises. -/
def noRetrievalMsg : String :=
  "Error: Unable to retrieve any documents from the vector store."

/-- The aggregator: the four strategies, then, if they produced no documents
at all, the fallback basic similarity search; if that raises too, the
pipeline fails with `noRetrievalMsg`. -/
def aggregate (o : SearchOracle) (rc : Nat) : Except String (List Doc) :=
  let allDocs := runStrategies o rc
  if allDocs = [] then
    match o fallbackCall with
    | .ok ds => .ok ds
    | .error _ => .error noRetrievalMsg
  else .ok allDocs

/-! ### Deduplication (main.py lines 570-578) -/

/-- Python `s[:100]` on the text, in characters. -/
def takeChars (s : String) (n : Nat) : String := String.mk (s.data.take n)

/-- The identity key used for deduplication:
`doc.metadata.get('file_id', doc.metadata.get('id', doc.page_content[:100]))`. -/
def docKey (d : Doc) : String :=
  d.file_id.getD (d.id.getD (takeChars d.page_content 100))

/-- The dedup loop with its `seen_ids` accumulator. -/
def dedupeAux : List Doc → List String → List Doc
  | [], _ => []
  | d :: ds, seen =>
    if seen.contains (docKey d) then dedupeAux ds seen
    else d :: dedupeAux ds (docKey d :: seen)

/-- `unique_docs`: remove key-duplicates while preserving order. -/
def dedupe (ds : List Doc) : List Doc := dedupeAux ds []

/-! ### Context budgeter (main.py lines 591-602) -/

/-- The budget loop with its running `total_chars`: include a chunk while the
cumulative length stays within `max_context_length * 2`, break at the first
chunk that would exceed it. -/
def budgetAux (maxLen : Nat) : List Doc → Nat → List Doc
  | [], _ => []
  | d :: ds, total =>
    if total + d.page_content.length ≤ maxLen * 2 then
      d :: budgetAux maxLen ds (total + d.page_content.length)
    else []

/-- `final_docs_limited`: the character-budget truncation. -/
def budget (ds : List Doc) (maxLen : Nat) : List Doc := budgetAux maxLen ds 0

/-! ### Relevance filter (main.py lines 605-661) -/

/-- The stop-list used when collecting lowercase candidate names. -/
def nameStopWords : List String :=
  ["tell", "me", "about", "what", "who", "where", "when", "how", "why"]

/-- `re.findall(r'\b[A-Z][a-z]+\b', query)`: the maximal word runs matching
`[A-Z][a-z]+`. -/
def capitalizedNames (q : String) : List String :=
  (wordRuns q).filterMap fun r => if isCapName r then some (String.mk r) else none

/-- The lowercase candidate names: words of `query.lower().split()` longer
than 3 characters and outside the stop-list. -/
def lowercaseNames (q : String) : List String :=
  (pySplit (pyLower q)).filter fun w => w.length > 3 && !(nameStopWords.contains w)

/-- `potential_names`: capitalized-word matches followed by the lowercase
candidates. -/
def potentialNames (q : String) : List String :=
  capitalizedNames q ++ lowercaseNames q

/-- Does a document mention `name` (already lowercased) in its lowercased
content or title? -/
def docMatchesName (name : String) (d : Doc) : Bool :=
  strContains (pyLower d.page_content) name || strContains (pyLower (d.title.getD "")) name

/-- The early-termination message of the name branch. -/
def noDocsMessage (name : String) : String :=
  "No documents found containing information about \x27" ++ name ++
    "\x27. Please check if this person\x27s documents are in your Google Drive."

/-- The message of the final empty check (reachable via the word-overlap
fallback branch). -/
def noRelevantMsg : String :=
  "No relevant documents found for your question. Please check if the information exists in your documents."

/-- The relevance filter: if candidate names exist, keep exactly the
documents mentioning the first one (lowercased), terminating early when none
does; otherwise fall back to keeping documents sharing a word with the
query. -/
def relevanceFilter (q : String) (docs : List Doc) : Except String (List Doc) :=
  match potentialNames q with
  | primary0 :: _ =>
    let primary := pyLower primary0
    let relevant := docs.filter (docMatchesName primary)
    if relevant = [] then .error (noDocsMessage primary) else .ok relevant
  | [] =>
    let queryWords := pySplit (pyLower q)
    let relevant := docs.filter fun d =>
      (pySplit (pyLower d.page_content)).any fun w => queryWords.contains w
    if relevant = [] then .error noRelevantMsg else .ok relevant

/-! ### The core pipeline up to the generator (main.py lines 502-661) -/

/-- The message when even the fallback search returns zero documents. -/
def noDocsInDbMsg : String :=
  "No documents found in the vector database. Please check if documents were properly loaded."

/-- The pipeline from retrieval to the sequence of chunks handed to the
answer generator: aggregate, deduplicate, check non-emptiness, budget, then
relevance-filter — in the source's order. -/
def query_llm_core (s : SearchOracle) (q : String) (rc mcl : Nat) :
    Except String (List Doc) :=
  match aggregate s rc with
  | .error m => .error m
  | .ok allDocs =>
    let uniqueDocs := dedupe allDocs
    if uniqueDocs = [] then .error noDocsInDbMsg
    else relevanceFilter q (budget uniqueDocs mcl)

/-! ### Answer generator prompt (main.py lines 689-727)

`RetrievalQA` with the `stuff` chain formats the fixed template with
`context` = the chunks' `page_content` joined by the default document
separator `"\n\n"`, and `question` = the query. -/

/-- The template text before `{context}`. -/
def promptPart1 : String :=
  "You are a helpful AI assistant. Answer the question by searching and using ONLY information that is EXPLICITLY stated in the documents provided in the context below. \n\nCRITICAL RULES - NO HALLUCINATION:\n- ONLY use information that is EXPLICITLY written in the document text\n- Do NOT add any information that is not directly stated in the documents\n- Do NOT make assumptions or inferences beyond what is written\n- If contact information is mentioned, provide it EXACTLY as written\n- If links are mentioned, provide them EXACTLY as written\n- If something is not clearly stated, say \"This information is not provided in the documents\"\n- Do NOT summarize or interpret beyond the literal text\n- Be extremely precise and factual\n- When mentioning links, emails, phone numbers, etc., copy them EXACTLY as they appear\n\nContext (DOCUMENTS): "

/-- The template text between `{context}` and `{question}`. -/
def promptPart2 : String := "\n\nQuestion: "

/-- The template text after `{question}`. -/
def promptPart3 : String :=
  "\n\nInstructions:\n1. Read through ALL documents carefully\n2. Find information that EXPLICITLY answers the question\n3. Quote or paraphrase the EXACT information from the documents\n4. If information is missing or unclear, state \"This information is not provided in the documents\"\n5. Do NOT add any information that is not in the documents\n6. If links or contact details are mentioned, provide them exactly as written\n7. Be very specific about what information is available vs. what is not\n\nAnswer:"

/-- The single instruction prompt handed to the LLM oracle. -/
def buildPrompt (docs : List Doc) (q : String) : String :=
  promptPart1 ++ String.intercalate "\n\n" (docs.map (·.page_content)) ++
    promptPart2 ++ q ++ promptPart3

/-! ### Evaluator (src/evaluator.py) -/

/-- `int(str(response.content).strip()[0])`: the first character of the
stripped reply as a digit; an empty reply or a non-digit first character
raises (modelled as `none`). -/
def parseScore (s : String) : Option Nat :=
  match s.data.dropWhile isPySpace with
  | [] => none
  | c :: _ => if c.isDigit then some (c.toNat - 48) else none

/-- The relevance-rating prompt of `evaluate_qa_response`. -/
def relevancePrompt (q a : String) : String :=
  "\nEvaluate how well this answer addresses the user\x27s question.\n\nQuestion: " ++ q ++
    "\nAnswer: " ++ a ++
    "\n\nRate the relevance:\n- 5 = Perfectly answers the question\n- 4 = Very good answer with minor gaps\n- 3 = Good answer but missing some details\n- 2 = Partially relevant but incomplete\n- 1 = Barely relevant\n- 0 = Completely irrelevant\n\nRespond ONLY with the number (0-5).\n"

/-- The completeness-rating prompt of `evaluate_qa_response`. -/
def completenessPrompt (q a : String) : String :=
  "\nEvaluate how complete this answer is for the given question.\n\nQuestion: " ++ q ++
    "\nAnswer: " ++ a ++
    "\n\nRate the completeness:\n- 5 = Complete answer with all necessary details\n- 4 = Mostly complete with minor omissions\n- 3 = Good coverage but missing some aspects\n- 2 = Partial answer with significant gaps\n- 1 = Very incomplete\n- 0 = No useful information\n\nRespond ONLY with the number (0-5).\n"

/-- The source-relevance prompt (only built and sent when source documents
are supplied); uses the first three sources joined by newlines. -/
def sourcePrompt (q : String) (srcs : List String) : String :=
  "\nEvaluate how relevant the source documents are to the question.\n\nQuestion: " ++ q ++
    "\nSource Documents: " ++ String.intercalate "\n" (srcs.take 3) ++
    "\n\nRate the source relevance:\n- 5 = Sources perfectly match the question\n- 4 = Sources are very relevant\n- 3 = Sources are somewhat relevant\n- 2 = Sources are barely relevant\n- 1 = Sources are not relevant\n- 0 = No sources provided\n\nRespond ONLY with the number (0-5).\n"

/-- The mapping returned by `evaluate_qa_response`, minus the
non-deterministic `timestamp` field.  On the error path only `error` is
populated; on success `error` is absent. -/
structure QaEval where
  relevance_score : Option Nat
  completeness_score : Option Nat
  source_relevance_score : Option Nat
  overall_score : Option ℚ
  query : Option String
  answer_length : Option Nat
  error : Option String
deriving DecidableEq

/-- The error mapping `{"error": str(e), "timestamp": ...}`. -/
def qaError (e : String) : QaEval := ⟨none, none, none, none, none, none, some e⟩

/-- `str(e)` of the `ValueError`/`IndexError` raised by score parsing; the
exact Python exception text is abstracted by this constant. -/
def parseFailureMsg : String := "invalid literal for int() with base 10"

/-- `evaluate_qa_response`: two (or three, with sources) LLM rating calls,
each reply parsed as a single digit, averaged into `overall_score`; any
raised exception yields the error mapping.  `round(x, 2)` is the identity on
the two-score mean (an exact multiple of 1/2), which is the only path the
repository exercises (`source_documents` is never passed); on the
three-score path the float rounding is abstracted by the exact rational
mean. -/
def evaluate_qa_response (llm : LLMOracle) (q a : String)
    (srcDocs : Option (List String)) : QaEval :=
  match llm (relevancePrompt q a) with
  | .error e => qaError e
  | .ok rres =>
    match parseScore rres with
    | none => qaError parseFailureMsg
    | some i =>
      match llm (completenessPrompt q a) with
      | .error e => qaError e
      | .ok cres =>
        match parseScore cres with
        | none => qaError parseFailureMsg
        | some j =>
          match srcDocs with
          | some (d :: ds) =>
            match llm (sourcePrompt q (d :: ds)) with
            | .error e => qaError e
            | .ok sres =>
              match parseScore sres with
              | none => qaError parseFailureMsg
              | some k =>
                ⟨some i, some j, some k, some (((i : ℚ) + j + k) / 3),
                  some q, some a.length, none⟩
          | _ =>
            ⟨some i, some j, none, some (((i : ℚ) + j) / 2),
              some q, some a.length, none⟩

/-- The mapping returned by `evaluate_retrieval_quality`, minus the
`timestamp`. -/
structure RetrievalEval where
  retrieval_score : Option Nat
  coverage_score : Option Nat
  diversity_score : Option ℚ
  num_documents : Option Nat
  error : Option String
deriving DecidableEq

/-- The retrieval-relevance prompt, over the first five documents joined by
`\n---\n`. -/
def retrievalPrompt (q : String) (docs : List String) : String :=
  "\nEvaluate how relevant the retrieved documents are to the query.\n\nQuery: " ++ q ++
    "\nRetrieved Documents: " ++ String.intercalate "\n---\n" (docs.take 5) ++
    "\n\nRate the retrieval relevance:\n- 5 = All documents highly relevant\n- 4 = Most documents relevant\n- 3 = Some documents relevant\n- 2 = Few documents relevant\n- 1 = Most documents irrelevant\n- 0 = All documents irrelevant\n\nRespond ONLY with the number (0-5).\n"

/-- The coverage prompt, over the first five documents joined by `\n---\n`. -/
def coveragePrompt (q : String) (docs : List String) : String :=
  "\nEvaluate how well the retrieved documents cover the information needed for the query.\n\nQuery: " ++ q ++
    "\nRetrieved Documents: " ++ String.intercalate "\n---\n" (docs.take 5) ++
    "\n\nRate the coverage:\n- 5 = Complete coverage of all aspects\n- 4 = Good coverage with minor gaps\n- 3 = Adequate coverage\n- 2 = Poor coverage with significant gaps\n- 1 = Very poor coverage\n- 0 = No relevant coverage\n\nRespond ONLY with the number (0-5).\n"

/-- `evaluate_retrieval_quality`: an empty retrieval short-circuits to the
zero scores with an error note before any LLM call; otherwise two rating
calls plus the `min(5, n * 1.5)` diversity heuristic (`round(x, 2)` is the
identity on these exact halves).  The `expected_keywords` parameter is
accepted and ignored, as in the source. -/
def evaluate_retrieval_quality (llm : LLMOracle) (q : String)
    (retrievedDocs : List String) (_expectedKeywords : Option (List String)) :
    RetrievalEval :=
  match retrievedDocs with
  | [] => ⟨some 0, some 0, some 0, none, some "No documents retrieved"⟩
  | _ =>
    match llm (retrievalPrompt q retrievedDocs) with
    | .error e => ⟨none, none, none, none, some e⟩
    | .ok rres =>
      match parseScore rres with
      | none => ⟨none, none, none, none, some parseFailureMsg⟩
      | some i =>
        match llm (coveragePrompt q retrievedDocs) with
        | .error e => ⟨none, none, none, none, some e⟩
        | .ok cres =>
          match parseScore cres with
          | none => ⟨none, none, none, none, some parseFailureMsg⟩
          | some j =>
            ⟨some i, some j, some (min 5 ((retrievedDocs.length : ℚ) * 3 / 2)),
              some retrievedDocs.length, none⟩

/-! ### Answer auditor and response assembly (main.py lines 762-864) -/

/-- The common-word exclusion list of the content-overlap check, verbatim
from the source (including its duplicate entry). -/
def commonWords : List String :=
  ["the", "and", "for", "with", "this", "that", "from", "have", "they", "will",
   "been", "were", "said", "each", "which", "their", "time", "would", "there",
   "could", "other", "about", "many", "then", "them", "these", "some", "what",
   "into", "more", "only", "very", "just", "know", "take", "than", "first",
   "been", "good", "much", "over", "think", "also", "here", "most", "even",
   "make", "life", "still", "should", "through", "back", "after", "work",
   "years", "never", "become", "under", "same", "another", "family", "seem",
   "last", "left", "might", "while", "along", "right", "during", "before",
   "those", "always", "world", "place", "again", "around", "however", "often",
   "together", "important", "something", "sometimes", "nothing", "everything",
   "anything", "someone", "everyone", "anyone", "nobody", "everybody",
   "anybody"]

/-- The meaningful words of one document's content: words longer than 3
characters whose lowercasing is not a common word, lowercased. -/
def contentWords (d : Doc) : List String :=
  ((pySplit d.page_content).filter fun w =>
    w.length > 3 && !(commonWords.contains (pyLower w))).map pyLower

/-- `context_words`: the first 100 meaningful words of each chunk, pooled. -/
def ctxWords (docs : List Doc) : List String :=
  (docs.map (fun d => (contentWords d).take 100)).flatten

/-- First-occurrence deduplication of strings (Python set construction). -/
def dedupStrAux : List String → List String → List String
  | [], _ => []
  | x :: xs, seen =>
    if seen.contains x then dedupStrAux xs seen
    else x :: dedupStrAux xs (x :: seen)

/-- `overlap`: how many distinct context words occur among the words of the
answer (both sides are Python sets, so distinct words are counted once). -/
def overlapCount (answer : String) (docs : List Doc) : Nat :=
  ((dedupStrAux (ctxWords docs) []).filter fun w =>
    (pySplit (pyLower answer)).contains w).length

/-- The lowercased document titles that occur verbatim in the lowercased
answer (empty titles are skipped by the truthiness test). -/
def fileNamesInResponse (answer : String) (docs : List Doc) : List String :=
  docs.filterMap fun d =>
    let t := pyLower (d.title.getD "")
    if t ≠ "" && strContains (pyLower answer) t then some t else none

/-- The title-reliance warning appended when a title occurs in the answer. -/
def titleWarning (answer : String) (docs : List Doc) : String :=
  "\n\nWarning: Response may be based on file names rather than content. Detected file names: " ++
    String.intercalate ", " (fileNamesInResponse answer docs)

/-- The possible-fabrication note appended when fewer than five meaningful
context words overlap the answer. -/
def fabricationNote : String :=
  "\n\nNote: This response may not be fully based on the actual document content. Please verify the information."

/-- The brevity note appended when the answer is under 100 characters. -/
def briefNote : String :=
  "\n\nNote: Response seems brief. This might indicate limited information in the documents or the model not using all available content."

/-- The per-document lines of the extracted-information section: links,
emails and phone numbers found in the content, each labelled with the
title. -/
def docExtractLines (d : Doc) : List String :=
  let t := d.title.getD "Unknown Document"
  let ls := findLinks d.page_content
  let es := findEmails d.page_content
  let ps := findPhones d.page_content
  (if ls = [] then []
   else ["Links in \x27" ++ t ++ "\x27: " ++ String.intercalate ", " ls]) ++
  (if es = [] then []
   else ["Emails in \x27" ++ t ++ "\x27: " ++ String.intercalate ", " es]) ++
  (if ps = [] then []
   else ["Phone numbers in \x27" ++ t ++ "\x27: " ++ String.intercalate ", " ps])

/-- The extracted-information block (empty when nothing was extracted). -/
def extractedInfoSection (docs : List Doc) : String :=
  let infos := (docs.map docExtractLines).flatten
  if infos = [] then ""
  else "\n\nExtracted Information from Documents:\n" ++ String.intercalate "\n" infos

/-- The source list: one numbered entry per distinct `title|source` pair,
keeping the 1-based position of the first document bearing it (skipped
duplicates still advance the counter, as `enumerate` does). -/
def sourceDetails : List Doc → List String → Nat → List String
  | [], _, _ => []
  | d :: ds, seen, i =>
    let t := d.title.getD "Unknown Document"
    let src := d.source.getD "Unknown Source"
    let sid := t ++ "|" ++ src
    if seen.contains sid then sourceDetails ds seen (i + 1)
    else
      let links := findLinks d.page_content
      ([toString i ++ ". " ++ t, "   Source: " ++ src] ++
        (if links = [] then []
         else ["   Links: " ++ String.intercalate ", " links]) ++ [""]) ++
        sourceDetails ds (sid :: seen) (i + 1)

/-- The `Sources Used` block. -/
def sourcesText (docs : List Doc) : String :=
  String.intercalate "\n" (sourceDetails docs [] 1)

/-- Rendering of a numeric score the way the f-string prints it.  The scores
on the modelled paths are exact halves, printed by Python as `n.0` or
`n.5`. -/
def renderScore (x : ℚ) : String :=
  if x.den = 1 then toString x.num ++ ".0"
  else if x.den = 2 then toString (x.num / 2) ++ ".5"
  else toString x.num ++ "/" ++ toString (x.den : Int)

/-- `evaluation.get('relevance_score', 'N/A')` as displayed text. -/
def showOptNat : Option Nat → String
  | some n => toString n
  | none => "N/A"

/-- `evaluation.get('overall_score', 'N/A')` as displayed text. -/
def showOptScore : Option ℚ → String
  | some x => renderScore x
  | none => "N/A"

/-- The `Response Quality` block appended when evaluation is requested. -/
def evalInfoString (ev : QaEval) : String :=
  "\n\nResponse Quality:\n" ++
    "• Relevance: " ++ showOptNat ev.relevance_score ++ "/5\n" ++
    "• Completeness: " ++ showOptNat ev.completeness_score ++ "/5\n" ++
    "• Overall Score: " ++ showOptScore ev.overall_score ++ "/5"

/-- The full user-visible response assembled around the raw LLM answer:
answer, advisory validation notes, sources, and the optional evaluation
block (the source's inner `except` around the evaluator import/call is
unreachable here because the embedded evaluator is total). -/
def buildResponse (q answer : String) (docs : List Doc) (evalFlag : Bool)
    (evLLM : LLMOracle) : String :=
  let sources := sourcesText docs
  let cv1 := extractedInfoSection docs
  let cv2 := cv1 ++ (if fileNamesInResponse answer docs = [] then ""
                     else titleWarning answer docs)
  let cv3 := cv2 ++ (if overlapCount answer docs < 5 then fabricationNote else "")
  let cv4 := cv3 ++ (if answer.length < 100 then briefNote else "")
  let response := "Answer:\n" ++ answer ++ cv4 ++ "\n\nSources Used:\n" ++ sources
  if evalFlag then
    response ++ evalInfoString (evaluate_qa_response evLLM q answer none)
  else response

/-! ### The two entry points -/

/-- `query_llm`: the full pipeline producing the response string.  `llm`
answers the generator prompt, `evLLM` is the evaluator module's oracle;
`rc`/`mcl` are `retrieval_count`/`max_context_length`.  The remaining Python
parameters (`model`, `temperature`, `search_strategy`,
`confidence_threshold`, `prompt_template`) only configure the LLM client or
are unused, and are absorbed into the oracle. -/
def query_llm (s : SearchOracle) (llm evLLM : LLMOracle) (q : String)
    (evalFlag : Bool) (rc mcl : Nat) : String :=
  match query_llm_core s q rc mcl with
  | .error m => m
  | .ok docs =>
    match llm (buildPrompt docs q) with
    | .error e => "Error: " ++ e
    | .ok answer => buildResponse q answer docs evalFlag evLLM

/-- The sequence of strings yielded by `query_llm_stream`: the early-exit
messages are yielded whole; on the success path the fully-computed response
is replayed as `response[:i+1]` for `i = 0, …, len-1`.  The stream body is a
verbatim copy of `query_llm`'s pipeline (main.py lines 876-1238 repeat lines
502-864), so the stages are shared. -/
def query_llm_stream_yields (s : SearchOracle) (llm evLLM : LLMOracle)
    (q : String) (evalFlag : Bool) (rc mcl : Nat) : List String :=
  match query_llm_core s q rc mcl with
  | .error m => [m]
  | .ok docs =>
    match llm (buildPrompt docs q) with
    | .error e => ["Error: " ++ e]
    | .ok answer =>
      let response := buildResponse q answer docs evalFlag evLLM
      (List.range response.length).map fun i => takeChars response (i + 1)

/-! ### Helper lemmas -/

/-- Decidable equality for `Except`, so that concrete pipeline outcomes can
be settled by `decide`. -/
instance {ε α : Type} [DecidableEq ε] [DecidableEq α] : DecidableEq (Except ε α)
  | .error a, .error b =>
    if h : a = b then .isTrue (by rw [h]) else .isFalse (by intro hh; cases hh; exact h rfl)
  | .error _, .ok _ => .isFalse (by intro h; cases h)
  | .ok _, .error _ => .isFalse (by intro h; cases h)
  | .ok a, .ok b =>
    if h : a = b then .isTrue (by rw [h]) else .isFalse (by intro hh; cases hh; exact h rfl)

/-- A list is a prefix of itself followed by anything. -/
theorem isPrefixOfChars_self_append (n y : List Char) :
    isPrefixOfChars n (n ++ y) = true := by
  induction n with
  | nil => rfl
  | cons c cs ih => simp [isPrefixOfChars, ih]

/-- A prefix occurrence is found by the infix test. -/
theorem isInfixOfChars_of_prefix (n l : List Char)
    (h : isPrefixOfChars n l = true) : isInfixOfChars n l = true := by
  cases l with
  | nil =>
    cases n with
    | nil => rfl
    | cons c cs => simp [isPrefixOfChars] at h
  | cons c cs => simp [isInfixOfChars, h]

/-- Explicitly decomposed substrings are found by the infix test. -/
theorem isInfixOfChars_append (x n y : List Char) :
    isInfixOfChars n (x ++ n ++ y) = true := by
  induction x with
  | nil =>
    exact isInfixOfChars_of_prefix n (n ++ y) (isPrefixOfChars_self_append n y)
  | cons c cs ih =>
    have : (c :: cs) ++ n ++ y = c :: (cs ++ n ++ y) := by simp
    rw [this]
    simp only [isInfixOfChars, Bool.or_eq_true]
    exact Or.inr ih

/-- `strContains` finds a substring exhibited by a three-way split. -/
theorem strContains_of_split (a b c : String) :
    strContains (a ++ b ++ c) b = true := by
  unfold strContains
  rw [String.data_append, String.data_append]
  exact isInfixOfChars_append a.data b.data c.data

/-! ### C3: the context budgeter on three 60-character chunks -/

/-- A document whose content is sixty copies of a character, used to realise
the `[60, 60, 60]` corpus of the spec's context-budget test. -/
def sixtyCharDoc (c : Char) : Doc := { page_content := String.mk (List.replicate 60 c) }

/-- C3, counterexample: with `max_context_length = 100` and chunk lengths
`[60, 60, 60]`, the budgeter keeps all three chunks (cumulative lengths 60,
120, 180 are all within the 200-character boundary), not just the first two
as the claim states. -/
theorem c3_counterexample :
    budget [sixtyCharDoc 'a', sixtyCharDoc 'b', sixtyCharDoc 'c'] 100 =
      [sixtyCharDoc 'a', sixtyCharDoc 'b', sixtyCharDoc 'c'] ∧
    budget [sixtyCharDoc 'a', sixtyCharDoc 'b', sixtyCharDoc 'c'] 100 ≠
      [sixtyCharDoc 'a', sixtyCharDoc 'b'] := by
  constructor
  · decide
  · decide

/-- C3, amended: for `max_context_length = 100` and any three chunks of
character lengths `[60, 60, 60]`, the budgeter with truncation boundary
`2 × 100 = 200` keeps all three chunks and drops none (cumulative lengths
60, 120, 180 ≤ 200). -/
theorem c3_amended_budget_keeps_all_three (d1 d2 d3 : Doc)
    (h1 : d1.page_content.length = 60) (h2 : d2.page_content.length = 60)
    (h3 : d3.page_content.length = 60) :
    budget [d1, d2, d3] 100 = [d1, d2, d3] := by
  simp [budget, budgetAux, h1, h2, h3]

/-- Witness for C3: the amended theorem evaluated on a concrete
`[60, 60, 60]` corpus. -/
theorem c3_witness :
    budget [sixtyCharDoc 'a', sixtyCharDoc 'b', sixtyCharDoc 'c'] 100 =
      [sixtyCharDoc 'a', sixtyCharDoc 'b', sixtyCharDoc 'c'] :=
  c3_amended_budget_keeps_all_three _ _ _ (by decide) (by decide) (by decide)

/-! ### C2: the name filter on "Tell me about Priya's experience" -/

/-- A chunk mentioning "priya" (and not "tell"). -/
def priyaDoc : Doc := { page_content := "priya is an engineer with python skills" }

/-- A chunk mentioning neither "priya" nor "tell". -/
def otherDoc : Doc := { page_content := "random text on some unrelated topic" }

/-- C2: on the query "Tell me about Priya's experience" the code does not
retain the chunks mentioning "priya": the first extracted candidate name is
the capitalized filler word "Tell", the filter therefore looks for "tell",
finds no chunk containing it, and terminates early — excluding the
priya-mentioning chunk the claim says is retained. -/
theorem c2_primary_name_divergence :
    potentialNames "Tell me about Priya\x27s experience" =
      ["Tell", "Priya", "priya\x27s", "experience"] ∧
    docMatchesName "priya" priyaDoc = true ∧
    docMatchesName "priya" otherDoc = false ∧
    relevanceFilter "Tell me about Priya\x27s experience" [priyaDoc, otherDoc] =
      .error (noDocsMessage "tell") := by
  refine ⟨by decide, by decide, by decide, ?_⟩
  decide

/-! ### C4: deduplication lemmas -/

/-- The dedup loop only drops elements: its output is a sublist (order
preserved). -/
theorem dedupeAux_sublist : ∀ (l : List Doc) (seen : List String),
    List.Sublist (dedupeAux l seen) l := by
  intro l
  induction l with
  | nil => intro seen; simp [dedupeAux]
  | cons d ds ih =>
    intro seen
    unfold dedupeAux
    split
    · exact (ih seen).cons d
    · exact (ih (docKey d :: seen)).cons₂ d

/-- Keys already in `seen_ids` never reappear in the loop's output. -/
theorem dedupeAux_not_seen : ∀ (l : List Doc) (seen : List String),
    ∀ d ∈ dedupeAux l seen, docKey d ∉ seen := by
  intro l
  induction l with
  | nil => intro seen d hd; simp [dedupeAux] at hd
  | cons x xs ih =>
    intro seen d hd
    unfold dedupeAux at hd
    by_cases hx : seen.contains (docKey x)
    · rw [if_pos hx] at hd
      exact ih seen d hd
    · rw [if_neg hx] at hd
      rcases List.mem_cons.mp hd with h | h
      · subst h
        simpa using hx
      · intro hmem
        exact ih (docKey x :: seen) d h (List.mem_cons_of_mem _ hmem)

/-- The loop's output has pairwise-distinct keys. -/
theorem dedupeAux_keys_nodup : ∀ (l : List Doc) (seen : List String),
    ((dedupeAux l seen).map docKey).Nodup := by
  intro l
  induction l with
  | nil => intro seen; simp [dedupeAux]
  | cons x xs ih =>
    intro seen
    unfold dedupeAux
    split
    · exact ih seen
    · rw [List.map_cons]
      refine List.Nodup.cons ?_ (ih (docKey x :: seen))
      intro hmem
      rcases List.mem_map.mp hmem with ⟨e, he, hkey⟩
      exact dedupeAux_not_seen xs (docKey x :: seen) e he (hkey ▸ List.mem_cons_self _ _)

/-- Every element the loop emits is the first element of the input carrying
its key. -/
theorem dedupeAux_find_first : ∀ (l : List Doc) (seen : List String),
    ∀ d ∈ dedupeAux l seen, l.find? (fun e => docKey e == docKey d) = some d := by
  intro l
  induction l with
  | nil => intro seen d hd; simp [dedupeAux] at hd
  | cons x xs ih =>
    intro seen d hd
    unfold dedupeAux at hd
    by_cases hx : seen.contains (docKey x)
    · rw [if_pos hx] at hd
      have hne : docKey x ≠ docKey d := by
        intro he
        exact dedupeAux_not_seen xs seen d hd (he ▸ (by simpa using hx))
      rw [List.find?_cons_of_neg _ (by simpa using hne)]
      exact ih seen d hd
    · rw [if_neg hx] at hd
      rcases List.mem_cons.mp hd with h | h
      · subst h
        rw [List.find?_cons_of_pos _ (by simp)]
      · have hne : docKey x ≠ docKey d := by
          intro he
          exact dedupeAux_not_seen xs (docKey x :: seen) d h
            (he ▸ List.mem_cons_self _ _)
        rw [List.find?_cons_of_neg _ (by simpa using hne)]
        exact ih (docKey x :: seen) d h

/-- Every input key is either already in `seen_ids` or represented in the
loop's output. -/
theorem dedupeAux_covers : ∀ (l : List Doc) (seen : List String),
    ∀ d ∈ l, docKey d ∈ seen ∨ ∃ e ∈ dedupeAux l seen, docKey e = docKey d := by
  intro l
  induction l with
  | nil => intro seen d hd; simp at hd
  | cons x xs ih =>
    intro seen d hd
    unfold dedupeAux
    by_cases hx : seen.contains (docKey x)
    · rw [if_pos hx]
      rcases List.mem_cons.mp hd with h | h
      · subst h
        exact Or.inl (by simpa using hx)
      · exact ih seen d h
    · rw [if_neg hx]
      rcases List.mem_cons.mp hd with h | h
      · exact Or.inr ⟨x, List.mem_cons_self _ _, by rw [h]⟩
      · rcases ih (docKey x :: seen) d h with hseen | ⟨e, he, hkey⟩
        · rcases List.mem_cons.mp hseen with hk | hk
          · exact Or.inr ⟨x, List.mem_cons_self _ _, hk.symm⟩
          · exact Or.inl hk
        · exact Or.inr ⟨e, List.mem_cons_of_mem _ he, hkey⟩

/-- C4 (confirmed): the aggregator's deduplication keys each chunk by the
first available of file id, generic id, or the first 100 characters of text
(`docKey`); its output has exactly one chunk per distinct resolved key — the
first occurrence in the concatenated retrieval result — and preserves
first-seen order (it is a sublist of the input). -/
theorem c4_dedup_first_occurrence (l : List Doc) :
    ((dedupe l).map docKey).Nodup ∧
    List.Sublist (dedupe l) l ∧
    (∀ d ∈ dedupe l, l.find? (fun e => docKey e == docKey d) = some d) ∧
    (∀ d ∈ l, ∃ e ∈ dedupe l, docKey e = docKey d) := by
  refine ⟨dedupeAux_keys_nodup l [], dedupeAux_sublist l [], dedupeAux_find_first l [], ?_⟩
  intro d hd
  rcases dedupeAux_covers l [] d hd with h | h
  · simp at h
  · exact h

/-- A chunk sharing its drive file id with `dupKeyDocA` but with different
text: the two resolve to the same identity key. -/
def dupKeyDocA : Doc := { page_content := "first version of the text", file_id := some "drive-1" }

/-- See `dupKeyDocA`. -/
def dupKeyDocA2 : Doc := { page_content := "second version of the text", file_id := some "drive-1" }

/-- A chunk with a distinct generic id. -/
def dupKeyDocB : Doc := { page_content := "unrelated chunk", id := some "gen-7" }

/-- Witness for C4: on a concrete corpus with a duplicated key, the theorem
yields distinct keys, order preservation, and the first occurrence as the
kept representative; the deduplicated output is exactly the two first
occurrences. -/
theorem c4_witness :
    ((dedupe [dupKeyDocA, dupKeyDocB, dupKeyDocA2]).map docKey).Nodup ∧
    List.Sublist (dedupe [dupKeyDocA, dupKeyDocB, dupKeyDocA2]) [dupKeyDocA, dupKeyDocB, dupKeyDocA2] ∧
    [dupKeyDocA, dupKeyDocB, dupKeyDocA2].find?
      (fun e => docKey e == docKey dupKeyDocA) = some dupKeyDocA ∧
    dedupe [dupKeyDocA, dupKeyDocB, dupKeyDocA2] = [dupKeyDocA, dupKeyDocB] :=
  ⟨(c4_dedup_first_occurrence [dupKeyDocA, dupKeyDocB, dupKeyDocA2]).1,
   (c4_dedup_first_occurrence [dupKeyDocA, dupKeyDocB, dupKeyDocA2]).2.1,
   (c4_dedup_first_occurrence [dupKeyDocA, dupKeyDocB, dupKeyDocA2]).2.2.1
     dupKeyDocA (by decide),
   by decide⟩

/-! ### C1: order of budgeter and filter in the pipeline -/

/-- A 150-character chunk that does not mention "alice". -/
def longDoc : Doc :=
  { page_content := String.mk (List.replicate 150 'z'), file_id := some "L" }

/-- A 100-character chunk that mentions "alice". -/
def aliceDoc : Doc :=
  { page_content := "alice" ++ String.mk (List.replicate 95 'q'), file_id := some "A" }

/-- An oracle whose MMR strategy returns the long chunk first, then the
alice chunk. -/
def c1Search : SearchOracle := fun c =>
  if c.search_type = "mmr" then .ok [longDoc, aliceDoc] else .ok []

set_option maxRecDepth 40000

/-- C1, counterexample: with `max_context_length = 100` and the corpus
`[longDoc, aliceDoc]`, the code budgets BEFORE filtering: the budgeter keeps
only the 150-character chunk, the name filter then finds no chunk mentioning
"alice" and the pipeline terminates with the no-documents message — whereas
budgeting the already-filtered sequence (the claimed order) would hand
`[aliceDoc]` to the generator. -/
theorem c1_counterexample :
    query_llm_core c1Search "alice" 8 100 = .error (noDocsMessage "alice") ∧
    relevanceFilter "alice" (dedupe (runStrategies c1Search 8)) = .ok [aliceDoc] ∧
    budget [aliceDoc] 100 = [aliceDoc] ∧
    query_llm_core c1Search "alice" 8 100 ≠ .ok (budget [aliceDoc] 100) := by
  refine ⟨by decide, by decide, by decide, by decide⟩

/-- C1, amended: in both entry points the budgeter runs on the output of the
deduplicating aggregator and the relevance filter runs on the budgeter's
output; the chunk sequence handed to the answer generator equals the
name/relevance filter applied to the character-budget truncation of the
deduplicated sequence — the order is Aggregator, then Budgeter, then Filter,
then Generator. -/
theorem c1_amended_pipeline_order (s : SearchOracle) (llm evLLM : LLMOracle)
    (q : String) (evalFlag : Bool) (rc mcl : Nat) (docs : List Doc)
    (h : query_llm_core s q rc mcl = .ok docs) :
    (∃ all, aggregate s rc = .ok all ∧ dedupe all ≠ [] ∧
      relevanceFilter q (budget (dedupe all) mcl) = .ok docs) ∧
    (∀ ans, llm (buildPrompt docs q) = .ok ans →
      query_llm s llm evLLM q evalFlag rc mcl = buildResponse q ans docs evalFlag evLLM) := by
  cases haggr : aggregate s rc with
  | error m =>
    have hx : query_llm_core s q rc mcl = .error m := by
      unfold query_llm_core
      rw [haggr]
    rw [hx] at h
    simp at h
  | ok all =>
    have hred : query_llm_core s q rc mcl =
        if dedupe all = [] then Except.error noDocsInDbMsg
        else relevanceFilter q (budget (dedupe all) mcl) := by
      unfold query_llm_core
      rw [haggr]
    by_cases hempty : dedupe all = []
    · rw [hred, if_pos hempty] at h
      simp at h
    · rw [hred, if_neg hempty] at h
      have hcore : query_llm_core s q rc mcl = .ok docs := by
        rw [hred, if_neg hempty]
        exact h
      refine ⟨⟨all, rfl, hempty, h⟩, ?_⟩
      intro ans hans
      simp only [query_llm, hcore, hans]

/-- An oracle whose MMR strategy returns only the alice chunk. -/
def aliceSearch : SearchOracle := fun c =>
  if c.search_type = "mmr" then .ok [aliceDoc] else .ok []

/-- A constant LLM oracle. -/
def constLLM : LLMOracle := fun _ => .ok "alice is in the documents"

/-- Witness for C1's amended theorem: a concrete successful run in which the
generator is handed exactly the filter-after-budget sequence. -/
theorem c1_witness :
    (∃ all, aggregate aliceSearch 8 = .ok all ∧ dedupe all ≠ [] ∧
      relevanceFilter "alice" (budget (dedupe all) 100) = .ok [aliceDoc]) ∧
    (∀ ans, constLLM (buildPrompt [aliceDoc] "alice") = .ok ans →
      query_llm aliceSearch constLLM constLLM "alice" false 8 100 =
        buildResponse "alice" ans [aliceDoc] false constLLM) :=
  c1_amended_pipeline_order aliceSearch constLLM constLLM "alice" false 8 100
    [aliceDoc] (by decide)

/-! ### C5: early termination of the name branch -/

/-- A reduction lemma: when candidate names exist and no document matches
the first one, the filter yields the early-termination message. -/
theorem relevanceFilter_name_empty (q : String) (docs : List Doc) (n : String)
    (ns : List String) (hnames : potentialNames q = n :: ns)
    (hmiss : docs.filter (docMatchesName (pyLower n)) = []) :
    relevanceFilter q docs = .error (noDocsMessage (pyLower n)) := by
  unfold relevanceFilter
  rw [hnames]
  dsimp only
  rw [hmiss]
  simp

/-- C5, amended: if a candidate name is extracted from the query and no
budgeted chunk's text or title contains the first candidate (lowercased),
`query_llm` returns the literal
"No documents found containing information about '&lt;name&gt;'. Please check if
this person's documents are in your Google Drive." message, does not fall
back to unfiltered results, and invokes no LLM call (the result is the same
for every LLM and evaluator oracle). -/
theorem c5_amended_early_termination (s : SearchOracle) (llm evLLM : LLMOracle)
    (q : String) (evalFlag : Bool) (rc mcl : Nat) (all : List Doc)
    (n : String) (ns : List String)
    (haggr : aggregate s rc = .ok all) (hne : dedupe all ≠ [])
    (hnames : potentialNames q = n :: ns)
    (hmiss : (budget (dedupe all) mcl).filter (docMatchesName (pyLower n)) = []) :
    query_llm s llm evLLM q evalFlag rc mcl = noDocsMessage (pyLower n) := by
  have hred : query_llm_core s q rc mcl =
      if dedupe all = [] then Except.error noDocsInDbMsg
      else relevanceFilter q (budget (dedupe all) mcl) := by
    unfold query_llm_core
    rw [haggr]
  have hfil := relevanceFilter_name_empty q (budget (dedupe all) mcl) n ns hnames hmiss
  have hcore : query_llm_core s q rc mcl = .error (noDocsMessage (pyLower n)) := by
    rw [hred, if_neg hne]
    exact hfil
  simp only [query_llm, hcore]

/-- A chunk that mentions neither "alice" nor any query word. -/
def bobDoc : Doc := { page_content := "bob works on infrastructure", file_id := some "B" }

/-- An oracle whose MMR strategy returns only `bobDoc`. -/
def c5Search : SearchOracle := fun c =>
  if c.search_type = "mmr" then .ok [bobDoc] else .ok []

/-- C5, counterexample: on a concrete run that takes the early-termination
branch, the returned message is "No documents found containing information
about 'alice'. …" — it does not contain the claimed literal pattern
"no documents containing information about" (the word "found" intervenes). -/
theorem c5_counterexample :
    query_llm c5Search constLLM constLLM "alice" false 8 100 =
      "No documents found containing information about \x27alice\x27. Please check if this person\x27s documents are in your Google Drive." ∧
    strContains (query_llm c5Search constLLM constLLM "alice" false 8 100)
      "no documents containing information about" = false := by
  constructor
  · decide
  · decide

/-- Witness for C5's amended theorem: the concrete run above, with every
hypothesis discharged by evaluation. -/
theorem c5_witness :
    query_llm c5Search constLLM constLLM "alice" false 8 100 = noDocsMessage "alice" := by
  have h := c5_amended_early_termination c5Search constLLM constLLM "alice" false 8 100
    [bobDoc] "alice" [] (by decide) (by decide) (by decide) (by decide)
  have hp : pyLower "alice" = "alice" := by decide
  rw [hp] at h
  exact h

/-! ### C6: fault tolerance of the retrieval fan-out -/

/-- Only successful strategy calls contribute documents: the fold over the
`try/except` blocks equals the flattening of the successful results. -/
theorem okDocs_flatten_eq (o : SearchOracle) : ∀ cs : List SearchCall,
    (cs.map (fun c => okDocs (o c))).flatten =
      (cs.filterMap (fun c => (o c).toOption)).flatten := by
  intro cs
  induction cs with
  | nil => rfl
  | cons c cs ih =>
    cases hc : o c with
    | ok ds =>
      simp [okDocs, hc, Except.toOption]
      simpa [okDocs, Except.toOption] using ih
    | error e =>
      simp [okDocs, hc, Except.toOption]
      simpa [okDocs, Except.toOption] using ih

/-- C6 (confirmed): each of the four strategies is independently
fault-tolerant — a raising strategy contributes nothing and never aborts the
pipeline (the aggregated documents are exactly the flattened successful
results, and any nonempty aggregation succeeds regardless of which
strategies raised); if the four strategies together yield no documents, the
single fallback is the plain similarity search with fixed breadth `k = 20`,
whose success becomes the aggregation's result; the
no-documents-retrievable error outcome occurs exactly when the strategies
yielded nothing and the fallback also raised. -/
theorem c6_fault_tolerant_aggregation (o : SearchOracle) (rc : Nat) :
    (runStrategies o rc = ((searchCalls rc).filterMap (fun c => (o c).toOption)).flatten) ∧
    (runStrategies o rc ≠ [] → aggregate o rc = .ok (runStrategies o rc)) ∧
    (runStrategies o rc = [] → ∀ ds, o fallbackCall = .ok ds → aggregate o rc = .ok ds) ∧
    (∀ e, runStrategies o rc = [] → o fallbackCall = .error e →
      aggregate o rc = .error noRetrievalMsg) ∧
    (∀ m, aggregate o rc = .error m →
      m = noRetrievalMsg ∧ runStrategies o rc = [] ∧ o fallbackCall = .error ()) ∧
    fallbackCall = ⟨"similarity", ⟨20, none, none, none⟩⟩ := by
  refine ⟨okDocs_flatten_eq o (searchCalls rc), ?_, ?_, ?_, ?_, rfl⟩
  · intro hne
    simp only [aggregate]
    rw [if_neg hne]
  · intro hempty ds hok
    simp only [aggregate]
    rw [if_pos hempty, hok]
  · intro e hempty herr
    simp only [aggregate]
    rw [if_pos hempty, herr]
  · intro m hagg
    simp only [aggregate] at hagg
    by_cases hempty : runStrategies o rc = []
    · rw [if_pos hempty] at hagg
      cases hfb : o fallbackCall with
      | ok ds =>
        rw [hfb] at hagg
        simp at hagg
      | error u =>
        rw [hfb] at hagg
        simp only [Except.error.injEq] at hagg
        exact ⟨hagg.symm, hempty, by cases u; rfl⟩
    · rw [if_neg hempty] at hagg
      simp at hagg

/-- An oracle on which only the plain-similarity strategy (k = 16 for
`retrieval_count = 8`) succeeds; the other three raise. -/
def c6PartialSearch : SearchOracle := fun c =>
  if c.search_type = "similarity" && c.kwargs.k = 16 then .ok [bobDoc] else .error ()

/-- An oracle on which every call raises. -/
def c6FailSearch : SearchOracle := fun _ => .error ()

/-- Witness for C6: with three of four strategies raising, the aggregation
still succeeds with the surviving strategy's documents; with everything
raising, it is exactly the no-documents-retrievable error. -/
theorem c6_witness :
    aggregate c6PartialSearch 8 = .ok (runStrategies c6PartialSearch 8) ∧
    runStrategies c6PartialSearch 8 = [bobDoc] ∧
    aggregate c6FailSearch 8 = .error noRetrievalMsg :=
  ⟨(c6_fault_tolerant_aggregation c6PartialSearch 8).2.1 (by decide),
   by decide,
   (c6_fault_tolerant_aggregation c6FailSearch 8).2.2.2.1 () (by decide) (by decide)⟩

/-! ### C9: the evaluator has no lexical (non-LLM) strategy -/

/-- Modelled from the spec (§4.6): the stop-word list of the claimed lexical
strategy.  The spec does not fix the list; any list containing the function
words of its own example ("I", "like", "and") and not its content words
gives the example's full overlap. -/
def specStopWords : List String :=
  ["a", "an", "and", "are", "as", "at", "be", "by", "for", "from", "i", "in",
   "is", "it", "like", "of", "on", "or", "that", "the", "to", "with"]

/-- Modelled from the spec (§4.6): relevance as the stop-word-removed
token-overlap ratio of query vs. answer, scaled to 0-5.  This definition
follows the spec's words; no function of src/evaluator.py computes it. -/
def specLexicalRelevance (q a : String) : ℚ :=
  let qts := dedupStrAux ((pySplit (pyLower q)).filter
    (fun w => !(specStopWords.contains w))) []
  let ats := (pySplit (pyLower a)).filter (fun w => !(specStopWords.contains w))
  let hits := (qts.filter (fun w => ats.contains w)).length
  if qts.length = 0 then 0 else 5 * (hits : ℚ) / (qts.length : ℚ)

/-- Modelled from the spec (§4.6 and §8): completeness as a linear ramp in
answer length from the floor value 0.5 at 50 characters to the cap 1.0 at
1000 characters, scaled to 0-5.  This definition follows the spec's words;
no function of src/evaluator.py computes it. -/
def specLexicalCompleteness (len : Nat) : ℚ :=
  if len ≥ 1000 then 5
  else if len ≤ 50 then 5 / 2
  else 5 * (1 / 2 + ((len : ℚ) - 50) / 1900)

/-- An LLM oracle that always rates 0. -/
def zeroLLM : LLMOracle := fun _ => .ok "0"

/-- An LLM oracle that always rates 3. -/
def score3LLM : LLMOracle := fun _ => .ok "3"

/-- A 50-character answer. -/
def fiftyCharAnswer : String := String.mk (List.replicate 50 'x')

/-- C9, counterexample: the spec's lexical formula indeed gives 5 on the
"apple banana" example and 2.5 at 50 characters, but the repository's
evaluator computes no such thing: on the very same inputs its relevance and
completeness scores are whatever digit the LLM oracle returns (0 under
`zeroLLM`, 3 under `score3LLM`), so no non-LLM lexical strategy exists in
`evaluate_qa_response`. -/
theorem c9_counterexample :
    specLexicalRelevance "apple banana" "I like apple and banana" = 5 ∧
    (evaluate_qa_response zeroLLM "apple banana" "I like apple and banana" none).relevance_score = some 0 ∧
    (evaluate_qa_response score3LLM "apple banana" "I like apple and banana" none).relevance_score = some 3 ∧
    specLexicalCompleteness fiftyCharAnswer.length = 5 / 2 ∧
    (evaluate_qa_response zeroLLM "apple banana" fiftyCharAnswer none).completeness_score = some 0 ∧
    specLexicalCompleteness 1000 = 5 := by
  refine ⟨?_, by decide, by decide, ?_, by decide, ?_⟩
  · have hq : dedupStrAux ((pySplit (pyLower "apple banana")).filter
        (fun w => !(specStopWords.contains w))) [] = ["apple", "banana"] := by decide
    have ha : (pySplit (pyLower "I like apple and banana")).filter
        (fun w => !(specStopWords.contains w)) = ["apple", "banana"] := by decide
    have hhits : ((["apple", "banana"]).filter
        (fun w => (["apple", "banana"]).contains w)).length = 2 := by decide
    simp only [specLexicalRelevance, hq, ha, hhits]
    norm_num
  · have hl : fiftyCharAnswer.length = 50 := by decide
    rw [hl]
    simp only [specLexicalCompleteness]
    norm_num
  · simp only [specLexicalCompleteness]
    norm_num

/-- C9, amended: the evaluator provides only LLM-based scoring — relevance
and completeness are each the first digit of a separate LLM rating reply,
and the overall score is their mean; there is no lexical non-LLM strategy,
and the scores on any input are determined by the oracle's replies, not by
token overlap or answer length. -/
theorem c9_amended_llm_only_evaluator (llm : LLMOracle) (q a : String)
    (r c : String) (i j : Nat)
    (hr : llm (relevancePrompt q a) = .ok r)
    (hc : llm (completenessPrompt q a) = .ok c)
    (hir : parseScore r = some i) (hjc : parseScore c = some j) :
    evaluate_qa_response llm q a none =
      ⟨some i, some j, none, some (((i : ℚ) + j) / 2), some q, some a.length, none⟩ := by
  simp only [evaluate_qa_response, hr, hc, hir, hjc]

/-- Witness for C9's amended theorem: under the constant rating oracle the
evaluator returns exactly the parsed scores and their mean. -/
theorem c9_witness :
    evaluate_qa_response score3LLM "what is here" "short answer" none =
      ⟨some 3, some 3, none, some (((3 : ℚ) + 3) / 2), some "what is here",
        some ("short answer").length, none⟩ :=
  c9_amended_llm_only_evaluator score3LLM "what is here" "short answer" "3" "3" 3 3
    rfl rfl (by decide) (by decide)

/-! ### C10: retrieval evaluation of an empty document list -/

/-- C10 (confirmed): `evaluate_retrieval_quality` on an empty retrieval
returns zero retrieval, coverage and diversity scores together with the
"No documents retrieved" error note, and does so identically for every LLM
oracle and keyword argument — no LLM call is consulted. -/
theorem c10_empty_retrieval_eval (llm llm2 : LLMOracle) (q : String)
    (kw kw2 : Option (List String)) :
    evaluate_retrieval_quality llm q [] kw =
      ⟨some 0, some 0, some 0, none, some "No documents retrieved"⟩ ∧
    evaluate_retrieval_quality llm q [] kw = evaluate_retrieval_quality llm2 q [] kw2 :=
  ⟨rfl, rfl⟩

/-! ### C7: the streaming variant replays the fully-computed response -/

/-- Taking all characters of a string returns the string. -/
theorem takeChars_all (r : String) : takeChars r r.length = r := by
  cases r with
  | mk data => simp [takeChars, String.length]

/-- The prefix replay of a nonempty string ends with the whole string. -/
theorem prefixes_getLast (r : String) (h : 0 < r.length) :
    ((List.range r.length).map (fun i => takeChars r (i + 1))).getLast? = some r := by
  obtain ⟨m, hm⟩ : ∃ m, r.length = m + 1 := ⟨r.length - 1, by omega⟩
  rw [hm, List.range_succ, List.map_append, List.map_singleton, List.getLast?_concat]
  rw [← hm, takeChars_all]

/-- `"Answer:\n"` prefixes every assembled response, so it is nonempty. -/
theorem buildResponse_length_pos (q ans : String) (docs : List Doc)
    (evalFlag : Bool) (evLLM : LLMOracle) :
    0 < (buildResponse q ans docs evalFlag evLLM).length := by
  have h8 : ("Answer:\n" : String).length = 8 := rfl
  simp only [buildResponse]
  split
  · simp only [String.length_append]
    omega
  · simp only [String.length_append]
    omega

/-- C7 (confirmed): on its success path `query_llm_stream` yields exactly
the prefixes of lengths 1, 2, …, n of the fully-computed response — the
same string `query_llm` returns for the same inputs and identical oracle
answers — and the final yield is that entire response. -/
theorem c7_stream_prefix_replay (s : SearchOracle) (llm evLLM : LLMOracle)
    (q : String) (evalFlag : Bool) (rc mcl : Nat) (docs : List Doc) (ans : String)
    (hcore : query_llm_core s q rc mcl = .ok docs)
    (hllm : llm (buildPrompt docs q) = .ok ans) :
    query_llm_stream_yields s llm evLLM q evalFlag rc mcl =
      (List.range (query_llm s llm evLLM q evalFlag rc mcl).length).map
        (fun i => takeChars (query_llm s llm evLLM q evalFlag rc mcl) (i + 1)) ∧
    (query_llm_stream_yields s llm evLLM q evalFlag rc mcl).getLast? =
      some (query_llm s llm evLLM q evalFlag rc mcl) := by
  have hq : query_llm s llm evLLM q evalFlag rc mcl =
      buildResponse q ans docs evalFlag evLLM := by
    simp only [query_llm, hcore, hllm]
  have hs : query_llm_stream_yields s llm evLLM q evalFlag rc mcl =
      (List.range (buildResponse q ans docs evalFlag evLLM).length).map
        (fun i => takeChars (buildResponse q ans docs evalFlag evLLM) (i + 1)) := by
    simp only [query_llm_stream_yields, hcore, hllm]
  refine ⟨by rw [hs, hq], ?_⟩
  rw [hs, hq]
  exact prefixes_getLast _ (buildResponse_length_pos q ans docs evalFlag evLLM)

/-- Witness for C7: the concrete successful run, with the hypotheses
discharged by evaluation. -/
theorem c7_witness :
    query_llm_stream_yields aliceSearch constLLM constLLM "alice" false 8 100 =
      (List.range (query_llm aliceSearch constLLM constLLM "alice" false 8 100).length).map
        (fun i => takeChars (query_llm aliceSearch constLLM constLLM "alice" false 8 100) (i + 1)) ∧
    (query_llm_stream_yields aliceSearch constLLM constLLM "alice" false 8 100).getLast? =
      some (query_llm aliceSearch constLLM constLLM "alice" false 8 100) :=
  c7_stream_prefix_replay aliceSearch constLLM constLLM "alice" false 8 100 [aliceDoc]
    "alice is in the documents" (by decide) rfl

/-! ### C8: the auditor only appends to the verbatim answer -/

/-- C8 (confirmed): on the generator's success path the returned response
contains the LLM answer verbatim, directly after the fixed "Answer:"
header, and the three advisory checks — a document title occurring in the
answer, fewer than five meaningful context words overlapping it, and an
answer under 100 characters — only append their warning strings after the
answer; nothing alters or suppresses the answer text. -/
theorem c8_auditor_appends_only (s : SearchOracle) (llm evLLM : LLMOracle)
    (q : String) (evalFlag : Bool) (rc mcl : Nat) (docs : List Doc) (ans : String)
    (hcore : query_llm_core s q rc mcl = .ok docs)
    (hllm : llm (buildPrompt docs q) = .ok ans) :
    ∃ rest : String,
      query_llm s llm evLLM q evalFlag rc mcl = "Answer:\n" ++ ans ++ rest ∧
      (fileNamesInResponse ans docs ≠ [] →
        strContains rest (titleWarning ans docs) = true) ∧
      (overlapCount ans docs < 5 → strContains rest fabricationNote = true) ∧
      (ans.length < 100 → strContains rest briefNote = true) := by
  have hq : query_llm s llm evLLM q evalFlag rc mcl =
      buildResponse q ans docs evalFlag evLLM := by
    simp only [query_llm, hcore, hllm]
  refine ⟨extractedInfoSection docs ++
      ((if fileNamesInResponse ans docs = [] then "" else titleWarning ans docs) ++
       ((if overlapCount ans docs < 5 then fabricationNote else "") ++
        ((if ans.length < 100 then briefNote else "") ++
         ("\n\nSources Used:\n" ++ (sourcesText docs ++
          (if evalFlag then evalInfoString (evaluate_qa_response evLLM q ans none)
           else "")))))), ?_, ?_, ?_, ?_⟩
  · rw [hq]
    simp only [buildResponse]
    cases evalFlag with
    | false => simp [String.append_assoc]
    | true => simp [String.append_assoc]
  · intro hcond
    rw [if_neg hcond]
    have := strContains_of_split (extractedInfoSection docs) (titleWarning ans docs)
      ((if overlapCount ans docs < 5 then fabricationNote else "") ++
       ((if ans.length < 100 then briefNote else "") ++
        ("\n\nSources Used:\n" ++ (sourcesText docs ++
         (if evalFlag then evalInfoString (evaluate_qa_response evLLM q ans none)
          else "")))))
    simpa [String.append_assoc] using this
  · intro hcond
    rw [if_pos hcond]
    have := strContains_of_split
      (extractedInfoSection docs ++
        (if fileNamesInResponse ans docs = [] then "" else titleWarning ans docs))
      fabricationNote
      ((if ans.length < 100 then briefNote else "") ++
       ("\n\nSources Used:\n" ++ (sourcesText docs ++
        (if evalFlag then evalInfoString (evaluate_qa_response evLLM q ans none)
         else ""))))
    simpa [String.append_assoc] using this
  · intro hcond
    rw [if_pos hcond]
    have := strContains_of_split
      (extractedInfoSection docs ++
        ((if fileNamesInResponse ans docs = [] then "" else titleWarning ans docs) ++
         (if overlapCount ans docs < 5 then fabricationNote else "")))
      briefNote
      ("\n\nSources Used:\n" ++ (sourcesText docs ++
       (if evalFlag then evalInfoString (evaluate_qa_response evLLM q ans none)
        else "")))
    simpa [String.append_assoc] using this

/-- Witness for C8: a concrete successful run; the short answer triggers the
brevity condition, and the response starts with the verbatim answer. -/
theorem c8_witness :
    ∃ rest : String,
      query_llm aliceSearch constLLM constLLM "alice" false 8 100 =
        "Answer:\n" ++ "alice is in the documents" ++ rest ∧
      (fileNamesInResponse "alice is in the documents" [aliceDoc] ≠ [] →
        strContains rest (titleWarning "alice is in the documents" [aliceDoc]) = true) ∧
      (overlapCount "alice is in the documents" [aliceDoc] < 5 →
        strContains rest fabricationNote = true) ∧
      (("alice is in the documents" : String).length < 100 →
        strContains rest briefNote = true) :=
  c8_auditor_appends_only aliceSearch constLLM constLLM "alice" false 8 100 [aliceDoc]
    "alice is in the documents" (by decide) rfl

end GDSS
